import Mathlib

/-!
Verification of the Discv5 protocol-level service layer
(`src/service/service.ts` of ChainSafe/libp2p-discv5).

The service's data model and handlers are shallowly embedded below.
JavaScript `Map`s become association lists with the `Map` access
semantics (`mget`/`mset`/`mdel`), bigint rpc ids and 32-byte node ids
become `Nat`, and the handlers become pure state-transformer functions
returning the new state together with the messages sent and events
emitted.  Collaborator modules that are not part of the service file
(the kademlia table, the message codec helpers, the wire constants) are
modelled from the specification and carry a doc comment saying so.
-/

namespace Discv5

/-- A node identifier (32-byte value in the source, embedded as `Nat`). -/
abbrev NodeId := Nat

/-- An Ethereum Node Record, reduced to the fields the service layer
reads: the node id and the sequence number. -/
structure ENR where
  nodeId : NodeId
  seq : Nat
  deriving DecidableEq

/-- Connection status of a routing-table entry. -/
inductive EntryStatus where
  | Connected
  | Disconnected
  deriving DecidableEq

/-- Body of an outbound request message (PING or FINDNODE). -/
inductive RequestBody where
  | ping (enrSeq : Nat)
  | findnode (distance : Nat)
  deriving DecidableEq

/-- A request message: rpc id plus body. -/
structure RequestMessage where
  id : Nat
  body : RequestBody
  deriving DecidableEq

/-- Body of an inbound response message (PONG or NODES). -/
inductive ResponseBody where
  | pong (enrSeq : Nat)
  | nodes (total : Nat) (enrs : List ENR)
  deriving DecidableEq

/-- A response message: rpc id plus body. -/
structure ResponseMessage where
  id : Nat
  body : ResponseBody
  deriving DecidableEq

/-- An incoming NODES message as seen by `onNodes`. -/
structure INodesMessage where
  id : Nat
  total : Nat
  enrs : List ENR
  deriving DecidableEq

/-- An incoming FINDNODE message as seen by `onFindNode`. -/
structure IFindNodeMessage where
  id : Nat
  distance : Nat
  deriving DecidableEq

/-- The partial multi-packet NODES accumulator (`INodesResponse` in the
source): a packet counter and the aggregated ENRs. -/
structure INodesResponse where
  count : Nat
  enrs : List ENR
  deriving DecidableEq

/-- A lookup peer as handed to `sendLookup` (`ILookupPeer`), reduced to
the fields the service reads. -/
structure ILookupPeer where
  nodeId : NodeId
  iteration : Nat
  deriving DecidableEq

/-! ## JavaScript `Map` semantics over association lists -/

/-- `Map.get`: the value stored under `k`, if any. -/
def mget {β : Type} (m : List (Nat × β)) (k : Nat) : Option β :=
  (m.find? (fun p => p.1 == k)).map (fun p => p.2)

/-- `Map.delete`: remove the binding of `k`. -/
def mdel {β : Type} (m : List (Nat × β)) (k : Nat) : List (Nat × β) :=
  m.filter (fun p => p.1 != k)

/-- `Map.set`: replace the binding of `k` in place, or append it. -/
def mset {β : Type} (m : List (Nat × β)) (k : Nat) (v : β) : List (Nat × β) :=
  if (m.find? (fun p => p.1 == k)).isSome then
    m.map (fun p => if p.1 == k then (k, v) else p)
  else
    m ++ [(k, v)]

/-! ## Distances and wire constants -/

/-- Fuelled computation of the position of the highest-order bit in
which `a` and `b` differ (1-based), `0` when `a = b`. -/
def log2DistanceAux : Nat → Nat → Nat → Nat
  | 0, _, _ => 0
  | fuel + 1, a, b => if a = b then 0 else log2DistanceAux fuel (a / 2) (b / 2) + 1

/-- Modelled from the spec: `log2Distance` lives in the kademlia module,
which is absent from `src/`; per the spec glossary it is the position of
the highest-order 1-bit in `a XOR b`, and `0` iff `a = b`. -/
def log2Distance (a b : NodeId) : Nat :=
  log2DistanceAux (a + b) a b

/-- Modelled from the spec: wire constant of the packet module (absent
from `src/`); the spec fixes `MAX_PACKET_SIZE = 1280` bytes. -/
def MAX_PACKET_SIZE : Nat := 1280

/-- Modelled from the spec: wire constant of the enr module (absent from
`src/`); the spec fixes `MAX_RECORD_SIZE = 300` bytes. -/
def MAX_RECORD_SIZE : Nat := 300

/-- Modelled from the spec: `findNodeLog2Distance(target, peer)` lives in
the kademlia module, absent from `src/`; per the spec the reactor turns a
lookup peer into `FindNode(distance = log2Distance(target, peer))`. -/
def findNodeLog2Distance (target : NodeId) (peer : ILookupPeer) : Nat :=
  log2Distance target peer.nodeId

/-! ## Routing table

Modelled from the spec: the `KademliaRoutingTable` lives in the kademlia
module, which is absent from `src/`.  Entries are kept in table order;
the single-slot pending areas are kept in a separate list.  The spec's
eviction protocol (pending-slot probing) is not exercised by any claim
and is elided from `add`. -/

/-- A routing-table slot: record plus status. -/
structure Entry where
  enr : ENR
  status : EntryStatus
  deriving DecidableEq

/-- Modelled from the spec: the routing table, with the local node id,
the bucket-proper entries in table order, and the pending slots. -/
structure Kbuckets where
  localId : NodeId
  entries : List Entry
  pending : List Entry
  deriving DecidableEq

namespace Kbuckets

/-- Modelled from the spec: `getValue(id)` — lookup in the bucket proper
without status change. -/
def getValue (kb : Kbuckets) (id : NodeId) : Option ENR :=
  (kb.entries.find? (fun e => e.enr.nodeId == id)).map (fun e => e.enr)

/-- Modelled from the spec: `getWithPending(id)` — lookup including the
pending slots. -/
def getWithPending (kb : Kbuckets) (id : NodeId) : Option Entry :=
  (kb.entries ++ kb.pending).find? (fun e => e.enr.nodeId == id)

/-- Modelled from the spec: `updateStatus(id, status)` — mutate the
status of an existing entry; no-op if absent. -/
def updateStatus (kb : Kbuckets) (id : NodeId) (status : EntryStatus) : Kbuckets :=
  { kb with entries :=
      kb.entries.map (fun e => if e.enr.nodeId == id then { e with status } else e) }

/-- Modelled from the spec: `update(enr, status)` — mutate an existing
entry's record and status; no-op if absent. -/
def update (kb : Kbuckets) (enr : ENR) (status : EntryStatus) : Kbuckets :=
  { kb with entries :=
      kb.entries.map (fun e => if e.enr.nodeId == enr.nodeId then ⟨enr, status⟩ else e) }

/-- Modelled from the spec: `valuesOfDistance(d)` — all records in the
shell of log2-distance exactly `d`, in table order. -/
def valuesOfDistance (kb : Kbuckets) (d : Nat) : List ENR :=
  (kb.entries.filter (fun e => log2Distance kb.localId e.enr.nodeId == d)).map (fun e => e.enr)

/-- Modelled from the spec: `add(enr, status)` — attempt insertion,
returning `true` iff inserted into the bucket proper (bucket size 16);
the pending-slot path is elided (no claim depends on it). -/
def add (kb : Kbuckets) (enr : ENR) (status : EntryStatus) : Kbuckets × Bool :=
  if (kb.getWithPending enr.nodeId).isSome then
    (kb, false)
  else if (kb.entries.filter
      (fun e => log2Distance kb.localId e.enr.nodeId
        == log2Distance kb.localId enr.nodeId)).length < 16 then
    ({ kb with entries := kb.entries ++ [⟨enr, status⟩] }, true)
  else
    (kb, false)

/-- The status currently stored for `id` in the bucket proper. -/
def statusOf (kb : Kbuckets) (id : NodeId) : Option EntryStatus :=
  (kb.entries.find? (fun e => e.enr.nodeId == id)).map (fun e => e.status)

end Kbuckets

/-! ## Request correlation -/

/-- Modelled from the spec: `requestMatchesResponse` lives in the message
module, absent from `src/`; per the spec it is truthy exactly when the
request and response kinds agree (PING with PONG, FINDNODE with NODES). -/
def requestMatchesResponse (req : RequestMessage) (res : ResponseMessage) : Bool :=
  match req.body, res.body with
  | .ping _, .pong _ => true
  | .findnode _, .nodes _ _ => true
  | _, _ => false

/-- The `activeRequests` registry: rpc id to stored request and optional
lookup id. -/
abbrev ReqMap := List (Nat × (RequestMessage × Option Nat))

/-- `retrieveRequest` of the source, as a function from the registry and
the incoming response to the registry after the call together with the
returned request (if any).  The source deletes the entry as soon as the
id is known and then discards the response when `requestMatchesResponse`
is truthy. -/
def retrieveRequest (activeRequests : ReqMap) (message : ResponseMessage) :
    ReqMap × Option (RequestMessage × Option Nat) :=
  match mget activeRequests message.id with
  | none => (activeRequests, none)
  | some activeRequest =>
    let activeRequests := mdel activeRequests message.id
    if requestMatchesResponse activeRequest.1 message then
      (activeRequests, none)
    else
      (activeRequests, some activeRequest)

/-! ## NODES response reassembly (`onNodes`) -/

/-- The slice of service state touched by `onNodes`. -/
structure NodesState where
  activeRequests : ReqMap
  activeNodesResponses : List (Nat × INodesResponse)
  deriving DecidableEq

/-- `onNodes` of the source: process one incoming NODES message, giving
the new state and, when the handler reaches the end, the ENR set handed
to `discovered` with the associated lookup id.  The body mirrors the
source line by line: the distance filter reads `request.distance`
through a cast (which is `undefined` for a non-FINDNODE request,
embedded as `none`); the `total > 1` branch re-arms the request and
stores the incremented counter without appending the current packet's
ENRs, exactly as the source does. -/
def onNodes (localId : NodeId) (st : NodesState) (message : INodesMessage) :
    NodesState × Option (List ENR × Option Nat) :=
  match retrieveRequest st.activeRequests ⟨message.id, .nodes message.total message.enrs⟩ with
  | (ar, none) => ({ st with activeRequests := ar }, none)
  | (ar, some activeRequest) =>
    let request := activeRequest.1
    let lookupId := activeRequest.2
    let distanceRequested : Option Nat :=
      match request.body with
      | .findnode d => some d
      | _ => none
    let enrs := message.enrs.filter
      (fun enr => distanceRequested == some (log2Distance enr.nodeId localId))
    if 1 < message.total then
      let currentResponse := (mget st.activeNodesResponses message.id).getD ⟨1, []⟩
      let anr := mdel st.activeNodesResponses message.id
      if currentResponse.count < 5 ∧ currentResponse.count < message.total then
        ({ activeRequests := mset ar message.id (request, lookupId),
           activeNodesResponses :=
             mset anr message.id ⟨currentResponse.count + 1, currentResponse.enrs⟩ },
         none)
      else
        ({ activeRequests := ar, activeNodesResponses := mdel anr message.id },
         some (enrs ++ currentResponse.enrs, lookupId))
    else
      ({ activeRequests := ar,
         activeNodesResponses := mdel st.activeNodesResponses message.id },
       some (enrs, lookupId))

/-- Process a sequence of incoming NODES messages, collecting every ENR
set handed to `discovered`. -/
def runNodes (localId : NodeId) :
    NodesState → List INodesMessage → NodesState × List (List ENR × Option Nat)
  | st, [] => (st, [])
  | st, m :: ms =>
    let r := onNodes localId st m
    let rest := runNodes localId r.1 ms
    (rest.1, r.2.toList ++ rest.2)

/-! ## FINDNODE handling (`onFindNode`) -/

/-- Fuelled packet-splitting: successive slices of `k` records.  Each
step consumes at least one record, so `l.length` units of fuel always
suffice. -/
def splitNodesAux : Nat → Nat → List ENR → List (List ENR)
  | 0, _, _ => []
  | _ + 1, _, [] => []
  | fuel + 1, k, l =>
    if k = 0 then [] else l.take k :: splitNodesAux fuel k (l.drop k)

/-- The packet-splitting loop of `onFindNode`: successive slices of `k`
records (`for (let i = 0; i < nodes.length; i += k)`). -/
def splitNodes (k : Nat) (l : List ENR) : List (List ENR) :=
  splitNodesAux l.length k l

/-- `Math.ceil(n / k)` on natural numbers. -/
def ceilDiv (n k : Nat) : Nat := (n + k - 1) / k

/-- `onFindNode` of the source, as the list of NODES messages handed to
`sessionService.sendResponse`, in order.  The `distance === 0` branch
has no return and falls through to the `valuesOfDistance` query, exactly
as the source does; the empty-shell branch sends `total = 0`. -/
def onFindNode (kb : Kbuckets) (localEnr : ENR) (message : IFindNodeMessage) :
    List INodesMessage :=
  let sends0 : List INodesMessage :=
    if message.distance = 0 then [⟨message.id, 1, [localEnr]⟩] else []
  let nodes := kb.valuesOfDistance message.distance
  if nodes.length = 0 then
    sends0 ++ [⟨message.id, 0, nodes⟩]
  else
    let nodesPerPacket := (MAX_PACKET_SIZE - 92) / MAX_RECORD_SIZE
    let total := ceilDiv nodes.length nodesPerPacket
    sends0 ++ (splitNodes nodesPerPacket nodes).map (fun c => ⟨message.id, total, c⟩)

/-! ## Sending requests (`sendRequest`, `sendLookup`, `findEnr`) -/

/-- What became of a `sendRequest` call. -/
inductive SendOutcome where
  /-- No ENR for the destination in the routing table: nothing was
  handed to the session service. -/
  | noEnr
  /-- The session service's `sendRequest` threw synchronously. -/
  | failed
  /-- The request was handed to the session service for this ENR. -/
  | sent (dstEnr : ENR)
  deriving DecidableEq

/-- `sendRequest` of the source: look the destination up in the routing
table; absent an ENR, do nothing; otherwise hand the request to the
session service and, only when that did not throw (`sendOk`), record the
request in `activeRequests`. -/
def sendRequest (kb : Kbuckets) (activeRequests : ReqMap) (sendOk : Bool)
    (nodeId : NodeId) (req : RequestMessage) (lookupId : Option Nat) :
    ReqMap × SendOutcome :=
  match kb.getValue nodeId with
  | none => (activeRequests, .noEnr)
  | some dstEnr =>
    if sendOk then
      (mset activeRequests req.id (req, lookupId), .sent dstEnr)
    else
      (activeRequests, .failed)

/-- Result of `sendLookup`: either the zero-distance per-peer failure
path, or the result of the inner `sendRequest`. -/
inductive SendLookupResult where
  /-- `findNodeLog2Distance` was falsy: `lookup.onFailure(peer)` runs
  and nothing is sent. -/
  | peerFailure
  /-- The FINDNODE probe went through `sendRequest` with this result. -/
  | sent (res : ReqMap × SendOutcome)
  deriving DecidableEq

/-- `sendLookup` of the source: compute the log2 distance to the target;
when it is falsy mark the peer failed, otherwise send a FINDNODE probe
through `sendRequest` tagged with the lookup id.  The fresh rpc id that
`createFindNodeMessage` draws is passed in as `reqId`. -/
def sendLookup (kb : Kbuckets) (activeRequests : ReqMap) (sendOk : Bool)
    (reqId : Nat) (lookupId : Nat) (target : NodeId) (peer : ILookupPeer) :
    SendLookupResult :=
  let distance := findNodeLog2Distance target peer
  if distance = 0 then
    .peerFailure
  else
    .sent (sendRequest kb activeRequests sendOk peer.nodeId
      ⟨reqId, .findnode distance⟩ (some lookupId))

/-- `findEnr` of the source: the routing table first, then each live
lookup's `untrustedEnrs` buffer. -/
def findEnr (kb : Kbuckets) (lookups : List (List ENR)) (nodeId : NodeId) : Option ENR :=
  match kb.getValue nodeId with
  | some enr => some enr
  | none => lookups.findSome? (fun untrusted => untrusted.find? (fun e => e.nodeId == nodeId))

/-! ## Request failure (`onRequestFailed`, `connectionUpdated`) -/

/-- `connectionUpdated` of the source: update an entry present anywhere
in the table (record update when an ENR is supplied, else status only);
otherwise insert only a Connected entry with an ENR. -/
def connectionUpdated (kb : Kbuckets) (nodeId : NodeId) (enr : Option ENR)
    (newStatus : EntryStatus) : Kbuckets :=
  if (kb.getWithPending nodeId).isSome then
    match enr with
    | some e => kb.update e newStatus
    | none => kb.updateStatus nodeId newStatus
  else if newStatus = .Connected then
    match enr with
    | some e => (kb.add e newStatus).1
    | none => kb
  else
    kb

/-- The slice of service state touched by `onRequestFailed`, with the
per-peer ping timer handle abstracted away: cancelling the interval and
deleting the peer both become removal from `connectedPeers`. -/
structure ServiceState where
  kbuckets : Kbuckets
  activeRequests : ReqMap
  activeNodesResponses : List (Nat × INodesResponse)
  activeLookups : List (Nat × List ENR)
  connectedPeers : List NodeId
  deriving DecidableEq

/-- Side effect of `onRequestFailed` beyond the state change. -/
inductive FailAction where
  /-- The partial NODES accumulator was handed to `discovered`. -/
  | discovered (enrs : List ENR) (lookupId : Option Nat)
  /-- `lookup.onFailure(srcId)` ran for this lookup id. -/
  | lookupFailure (lookupId : Nat) (srcId : NodeId)
  deriving DecidableEq

/-- `onRequestFailed` of the source: salvage a partial FINDNODE
accumulator or notify the owning lookup, then mark the peer
Disconnected, clear its ping interval and remove it from
`connectedPeers`.  The source never deletes `rpcId` from
`activeRequests`; the embedding mirrors that. -/
def onRequestFailed (st : ServiceState) (srcId : NodeId) (rpcId : Nat) :
    ServiceState × Option FailAction :=
  let step :=
    match mget st.activeRequests rpcId with
    | some (request, lookupId) =>
      match request.body with
      | .findnode _ =>
        match mget st.activeNodesResponses rpcId with
        | some nodesResponse =>
          ({ st with activeNodesResponses := mdel st.activeNodesResponses rpcId },
           some (FailAction.discovered nodesResponse.enrs lookupId))
        | none =>
          match lookupId with
          | some lid =>
            if (mget st.activeLookups lid).isSome then
              (st, some (FailAction.lookupFailure lid srcId))
            else
              (st, none)
          | none => (st, none)
      | _ => (st, none)
    | none => (st, none)
  let st1 := step.1
  ({ st1 with
      kbuckets := connectionUpdated st1.kbuckets srcId none .Disconnected,
      connectedPeers := st1.connectedPeers.filter (fun id => id != srcId) },
   step.2)

/-! ## Lookup id assignment (`findNode`) -/

/-- One `findNode` call's effect on `nextLookupId`: the current value is
assigned, then the counter resets to 1 when it has reached `2 ^ 32` and
increments otherwise. -/
def lookupIdStep (nextLookupId : Nat) : Nat :=
  if 2 ^ 32 ≤ nextLookupId then 1 else nextLookupId + 1

/-- `nextLookupId` after `n` completed `findNode` starts, from the
constructor's initial value 1. -/
def nextAfter : Nat → Nat
  | 0 => 1
  | n + 1 => lookupIdStep (nextAfter n)

/-- The lookup id assigned by the `n`-th `findNode` call (0-indexed). -/
def assignedId (n : Nat) : Nat := nextAfter n

/-! ## Helper lemmas: map semantics -/

theorem mget_mdel_self {β : Type} (m : List (Nat × β)) (k : Nat) :
    mget (mdel m k) k = none := by
  unfold mget mdel
  cases h : (m.filter (fun p => p.1 != k)).find? (fun p => p.1 == k) with
  | none => simp
  | some p =>
    exfalso
    have hp := List.find?_some h
    have hmem := List.mem_of_find?_eq_some h
    have := (List.mem_filter.mp hmem).2
    simp only [bne_iff_ne, ne_eq, decide_eq_true_eq] at this hp
    simp only [beq_iff_eq] at hp
    exact this hp

theorem mem_mdel {β : Type} {m : List (Nat × β)} {k : Nat} {p : Nat × β}
    (h : p ∈ mdel m k) : p ∈ m :=
  (List.mem_filter.mp h).1

theorem mem_mset {β : Type} {m : List (Nat × β)} {k : Nat} {v : β} {p : Nat × β}
    (h : p ∈ mset m k v) : p = (k, v) ∨ p ∈ m := by
  unfold mset at h
  by_cases hc : (m.find? (fun p => p.1 == k)).isSome
  · rw [if_pos hc] at h
    obtain ⟨q, hq, hqe⟩ := List.mem_map.mp h
    by_cases hk : q.1 == k
    · left; rw [if_pos hk] at hqe; exact hqe.symm
    · right; rw [if_neg hk] at hqe; exact hqe ▸ hq
  · rw [if_neg hc] at h
    rcases List.mem_append.mp h with h' | h'
    · right; exact h'
    · left; simpa using h'

/-! ## Helper lemmas: packet splitting -/

theorem splitNodesAux_join (k : Nat) (hk : k ≠ 0) :
    ∀ (fuel : Nat) (l : List ENR), l.length ≤ fuel →
      (splitNodesAux fuel k l).flatten = l := by
  intro fuel
  induction fuel with
  | zero =>
    intro l hl
    have : l = [] := List.eq_nil_of_length_eq_zero (Nat.le_zero.mp hl)
    simp [this, splitNodesAux]
  | succ fuel ih =>
    intro l hl
    cases l with
    | nil => simp [splitNodesAux]
    | cons x xs =>
      simp only [splitNodesAux, if_neg hk, List.flatten_cons]
      rw [ih ((x :: xs).drop k) ?_]
      · exact List.take_append_drop k (x :: xs)
      · simp only [List.length_drop, List.length_cons]
        have hx : xs.length ≤ fuel := by simpa using hl
        omega

theorem splitNodesAux_length (k : Nat) (hk : k ≠ 0) :
    ∀ (fuel : Nat) (l : List ENR), l.length ≤ fuel →
      (splitNodesAux fuel k l).length = ceilDiv l.length k := by
  intro fuel
  induction fuel with
  | zero =>
    intro l hl
    have : l = [] := List.eq_nil_of_length_eq_zero (Nat.le_zero.mp hl)
    simp [this, splitNodesAux, ceilDiv, Nat.div_eq_of_lt (Nat.sub_lt (Nat.pos_of_ne_zero hk) Nat.one_pos)]
  | succ fuel ih =>
    intro l hl
    cases l with
    | nil =>
      simp [splitNodesAux, ceilDiv,
        Nat.div_eq_of_lt (Nat.sub_lt (Nat.pos_of_ne_zero hk) Nat.one_pos)]
    | cons x xs =>
      simp only [splitNodesAux, if_neg hk, List.length_cons]
      rw [ih ((x :: xs).drop k) ?_]
      · -- `ceilDiv (n - k) k + 1 = ceilDiv n k` for `n = xs.length + 1 ≥ 1`
        simp only [List.length_drop, List.length_cons, ceilDiv]
        have hkpos : 0 < k := Nat.pos_of_ne_zero hk
        set n := xs.length + 1 with hn
        have hn1 : 1 ≤ n := by omega
        have hleft : n + k - 1 = (n - 1) + k := by omega
        rw [hleft, Nat.add_div_right _ hkpos]
        have : (n - k + k - 1) / k = (n - 1) / k := by
          rcases le_or_lt k n with hkn | hkn
          · have : n - k + k - 1 = n - 1 := by omega
            rw [this]
          · have h1 : n - k = 0 := by omega
            rw [h1]
            rw [Nat.div_eq_of_lt (by omega), Nat.div_eq_of_lt (by omega)]
        omega
      · simp only [List.length_drop, List.length_cons]
        have hx : xs.length ≤ fuel := by simpa using hl
        omega

theorem splitNodes_join (k : Nat) (hk : k ≠ 0) (l : List ENR) :
    (splitNodes k l).flatten = l :=
  splitNodesAux_join k hk l.length l le_rfl

theorem splitNodes_length (k : Nat) (hk : k ≠ 0) (l : List ENR) :
    (splitNodes k l).length = ceilDiv l.length k :=
  splitNodesAux_length k hk l.length l le_rfl

/-! ## Helper lemmas: lookup id closed form -/

theorem nextAfter_eq (n : Nat) : nextAfter n = n % 2 ^ 32 + 1 := by
  induction n with
  | zero => simp [nextAfter]
  | succ n ih =>
    simp only [nextAfter, lookupIdStep, ih]
    split
    · omega
    · omega

/-! ## Claim theorems -/

/-- C1: the claim fails on the code.  A FINDNODE request (id 11,
distance 3) is registered; the three NODES packets
`(total=3, [a])`, `(total=3, [b, c])`, `(total=3, [d])` arrive, with all
four ENRs at log2-distance 3 from the local id 0.  The claim expects one
`Discovered` set `{a, b, c, d}`.  The code produces no `Discovered` set
at all: `retrieveRequest` discards the first packet because its match
check is inverted (it drops the response exactly when the kinds agree)
and deletes the request entry, so the later packets find no request; and
even on the accumulation path `onNodes` never appends the current
packet's ENRs to the accumulator. -/
theorem onNodes_multi_packet_drops_all :
    (runNodes 0
      ⟨[(11, (⟨11, .findnode 3⟩, none))], []⟩
      [⟨11, 3, [⟨4, 1⟩]⟩, ⟨11, 3, [⟨5, 1⟩, ⟨6, 1⟩]⟩, ⟨11, 3, [⟨7, 1⟩]⟩]).2 = []
    ∧ mget (runNodes 0
      ⟨[(11, (⟨11, .findnode 3⟩, none))], []⟩
      [⟨11, 3, [⟨4, 1⟩]⟩, ⟨11, 3, [⟨5, 1⟩, ⟨6, 1⟩]⟩, ⟨11, 3, [⟨7, 1⟩]⟩]).1.activeRequests 11
      = none := by
  constructor
  · rfl
  · rfl

/-- C2: the claim fails on the code.  With `activeRequests` holding
rpc id 1 for connected peer 5, `onRequestFailed(5, 1)` cancels the ping
interval, removes peer 5 from `connectedPeers` and marks it
Disconnected, but the handler contains no
`activeRequests.delete(rpcId)`: the registry still holds rpc id 1
afterwards, contradicting the claim that the entry is removed on
failure. -/
theorem onRequestFailed_leaves_registry_entry :
    mget (onRequestFailed
        ⟨⟨0, [⟨⟨5, 1⟩, .Connected⟩], []⟩,
         [(1, (⟨1, .ping 10⟩, none))], [], [], [5]⟩ 5 1).1.activeRequests 1
      = some (⟨1, .ping 10⟩, none)
    ∧ Kbuckets.statusOf (onRequestFailed
        ⟨⟨0, [⟨⟨5, 1⟩, .Connected⟩], []⟩,
         [(1, (⟨1, .ping 10⟩, none))], [], [], [5]⟩ 5 1).1.kbuckets 5
      = some .Disconnected
    ∧ (onRequestFailed
        ⟨⟨0, [⟨⟨5, 1⟩, .Connected⟩], []⟩,
         [(1, (⟨1, .ping 10⟩, none))], [], [], [5]⟩ 5 1).1.connectedPeers
      = [] := by
  exact ⟨rfl, rfl, rfl⟩

/-- C3: the claim fails on the code.  On `FINDNODE(id=7, distance=0)`
with an empty routing table, the handler sends the single-ENR NODES
carrying the local record, but the `distance === 0` branch has no
return: execution falls through to the `valuesOfDistance(0)` query and a
second, empty NODES response (with `total = 0`) is also sent — two sends
instead of the claimed exactly one. -/
theorem onFindNode_distance_zero_double_send :
    onFindNode ⟨0, [], []⟩ ⟨0, 1⟩ ⟨7, 0⟩ = [⟨7, 1, [⟨0, 1⟩]⟩, ⟨7, 0, []⟩]
    ∧ (onFindNode ⟨0, [], []⟩ ⟨0, 1⟩ ⟨7, 0⟩).length ≠ 1 := by
  exact ⟨rfl, by decide⟩

/-- C4: the claim fails on the code.  On `FINDNODE(id=9, distance=5)`
with no records at distance 5 (the table holds one record at
distance 2), the handler sends exactly one empty NODES response, but
with `total = 0` rather than the claimed `total = 1`. -/
theorem onFindNode_empty_shell_sends_total_zero :
    onFindNode ⟨0, [⟨⟨2, 1⟩, .Connected⟩], []⟩ ⟨0, 1⟩ ⟨9, 5⟩ = [⟨9, 0, []⟩]
    ∧ ((onFindNode ⟨0, [⟨⟨2, 1⟩, .Connected⟩], []⟩ ⟨0, 1⟩ ⟨9, 5⟩).map
        (fun m => m.total)) ≠ [1] := by
  exact ⟨rfl, by decide⟩

/-- C5: the claim fails on the code.  With a PING request stored under
rpc id 1, the matching PONG response is rejected by `retrieveRequest`
(which nevertheless clears the entry), while with a FINDNODE request
stored under rpc id 2 a mismatched PONG response is accepted: the match
check is inverted, so responses are accepted exactly when the kinds
disagree. -/
theorem retrieveRequest_match_check_inverted :
    requestMatchesResponse ⟨1, .ping 0⟩ ⟨1, .pong 7⟩ = true
    ∧ (retrieveRequest [(1, (⟨1, .ping 0⟩, none))] ⟨1, .pong 7⟩).2 = none
    ∧ (retrieveRequest [(1, (⟨1, .ping 0⟩, none))] ⟨1, .pong 7⟩).1 = []
    ∧ requestMatchesResponse ⟨2, .findnode 3⟩ ⟨2, .pong 7⟩ = false
    ∧ (retrieveRequest [(2, (⟨2, .findnode 3⟩, none))] ⟨2, .pong 7⟩).2
      = some (⟨2, .findnode 3⟩, none) := by
  exact ⟨rfl, rfl, rfl, rfl, rfl⟩

/-- C6: confirmed.  For a uniform declared `total`, one `onNodes` step
(1) keeps every stored packet counter at most `min total 5`, (2) when
the stored counter has reached `min total 5` and the incoming packet is
matched to a request, finalizes: both the request entry and the
accumulator for that id are gone afterwards, and (3) a packet whose id
is no longer registered is not accumulated — the state is unchanged and
nothing is handed on. -/
theorem onNodes_packet_counter_capped
    (localId : NodeId) (st : NodesState) (m : INodesMessage) (t : Nat)
    (ht : m.total = t)
    (hinv : ∀ p ∈ st.activeNodesResponses, p.2.count ≤ min t 5) :
    (∀ p ∈ (onNodes localId st m).1.activeNodesResponses, p.2.count ≤ min t 5)
    ∧ (∀ c : INodesResponse, mget st.activeNodesResponses m.id = some c →
        c.count = min t 5 →
        (retrieveRequest st.activeRequests ⟨m.id, .nodes m.total m.enrs⟩).2.isSome →
        1 < t →
        mget (onNodes localId st m).1.activeRequests m.id = none
        ∧ mget (onNodes localId st m).1.activeNodesResponses m.id = none)
    ∧ (mget st.activeRequests m.id = none → onNodes localId st m = (st, none)) := by
  subst ht
  refine ⟨?_, ?_, ?_⟩
  · -- counter bound is preserved
    intro p hp
    rcases hr : retrieveRequest st.activeRequests ⟨m.id, .nodes m.total m.enrs⟩
      with ⟨ar, req?⟩
    cases req? with
    | none =>
      simp only [onNodes, hr] at hp
      exact hinv p hp
    | some a =>
      simp only [onNodes, hr] at hp
      split at hp
      · split at hp
        · rename_i h2
          simp only at hp
          rcases mem_mset hp with hpe | hpm
          · subst hpe
            simp only
            omega
          · exact hinv p (mem_mdel hpm)
        · simp only at hp
          exact hinv p (mem_mdel (mem_mdel hp))
      · simp only at hp
        exact hinv p (mem_mdel hp)
  · -- a full accumulator finalizes and both entries vanish
    intro c hc hcount hsome h1t
    rcases hr : retrieveRequest st.activeRequests ⟨m.id, .nodes m.total m.enrs⟩
      with ⟨ar, req?⟩
    rw [hr] at hsome
    cases req? with
    | none => exact absurd hsome (by simp)
    | some a =>
      have har : ar = mdel st.activeRequests m.id := by
        unfold retrieveRequest at hr
        rcases hmg : mget st.activeRequests m.id with _ | x
        · rw [hmg] at hr
          exact absurd (congrArg Prod.snd hr).symm (by simp)
        · rw [hmg] at hr
          simp only at hr
          split at hr
          · exact absurd (congrArg Prod.snd hr).symm (by simp)
          · exact (congrArg Prod.fst hr).symm
      simp only [onNodes, hr]
      rw [if_pos h1t, hc]
      simp only [Option.getD_some]
      rw [if_neg (by omega)]
      exact ⟨har ▸ mget_mdel_self st.activeRequests m.id,
        mget_mdel_self (mdel st.activeNodesResponses m.id) m.id⟩
  · -- an unregistered id leaves the state untouched
    intro h3
    have hr : retrieveRequest st.activeRequests ⟨m.id, .nodes m.total m.enrs⟩
        = (st.activeRequests, none) := by
      unfold retrieveRequest
      rw [h3]
    simp only [onNodes, hr]

/-- C6 witness: a PING request stored under rpc id 1 (the inverted match
check accepts the NODES response for it), accumulator at its cap
`min 3 5 = 3`, incoming packet with `total = 3`. -/
theorem onNodes_packet_counter_capped_witness :
    ((⟨1, 3, []⟩ : INodesMessage).total = 3
    ∧ (∀ p ∈ ([(1, ⟨3, []⟩)] : List (Nat × INodesResponse)), p.2.count ≤ min 3 5))
    ∧ ((∀ p ∈ (onNodes 0 ⟨[(1, (⟨1, .ping 0⟩, none))], [(1, ⟨3, []⟩)]⟩
          ⟨1, 3, []⟩).1.activeNodesResponses, p.2.count ≤ min 3 5)
      ∧ (∀ c : INodesResponse,
          mget ([(1, ⟨3, []⟩)] : List (Nat × INodesResponse)) 1 = some c →
          c.count = min 3 5 →
          (retrieveRequest [(1, (⟨1, .ping 0⟩, none))]
            ⟨1, .nodes 3 []⟩).2.isSome →
          1 < 3 →
          mget (onNodes 0 ⟨[(1, (⟨1, .ping 0⟩, none))], [(1, ⟨3, []⟩)]⟩
            ⟨1, 3, []⟩).1.activeRequests 1 = none
          ∧ mget (onNodes 0 ⟨[(1, (⟨1, .ping 0⟩, none))], [(1, ⟨3, []⟩)]⟩
            ⟨1, 3, []⟩).1.activeNodesResponses 1 = none)
      ∧ (mget ([(1, (⟨1, .ping 0⟩, none))] : ReqMap) 1 = none →
          onNodes 0 ⟨[(1, (⟨1, .ping 0⟩, none))], [(1, ⟨3, []⟩)]⟩ ⟨1, 3, []⟩
            = (⟨[(1, (⟨1, .ping 0⟩, none))], [(1, ⟨3, []⟩)]⟩, none))) :=
  ⟨⟨rfl, by decide⟩,
    onNodes_packet_counter_capped 0 ⟨[(1, (⟨1, .ping 0⟩, none))], [(1, ⟨3, []⟩)]⟩
      ⟨1, 3, []⟩ 3 rfl (by decide)⟩

/-- C7 counterexample: the claim that every assigned lookup id satisfies
`1 ≤ id < 2^32` fails at the `2^32`-th `findNode` call of a run: the
counter is reset to 1 only after it has reached `2^32`, so the id
`2^32` itself is assigned once per cycle. -/
theorem findNode_lookup_id_reaches_two_pow_32 :
    assignedId (2 ^ 32 - 1) = 2 ^ 32 ∧ ¬ assignedId (2 ^ 32 - 1) < 2 ^ 32 := by
  have h := nextAfter_eq (2 ^ 32 - 1)
  rw [assignedId, h]
  omega

/-- C7 amended: within one run the assigned lookup ids start at 1,
increase by 1 after each start, are never 0, and wrap back to 1 only
after the value `2^32` has been assigned — so every assigned id
satisfies `1 ≤ id ≤ 2^32`, and any two starts fewer than `2^32` apart
receive distinct ids. -/
theorem findNode_lookup_id_sequence (m n : Nat) (hmn : m < n) (hw : n - m < 2 ^ 32) :
    assignedId 0 = 1
    ∧ 1 ≤ assignedId n
    ∧ assignedId n ≤ 2 ^ 32
    ∧ (assignedId n < 2 ^ 32 → assignedId (n + 1) = assignedId n + 1)
    ∧ (assignedId n = 2 ^ 32 → assignedId (n + 1) = 1)
    ∧ assignedId m ≠ assignedId n := by
  simp only [assignedId, nextAfter_eq]
  refine ⟨by omega, by omega, by omega, by omega, by omega, by omega⟩

/-- C7 witness: the amended sequence properties at the first two
starts. -/
theorem findNode_lookup_id_sequence_witness :
    0 < 1 ∧ 1 - 0 < 2 ^ 32
    ∧ (assignedId 0 = 1
      ∧ 1 ≤ assignedId 1
      ∧ assignedId 1 ≤ 2 ^ 32
      ∧ (assignedId 1 < 2 ^ 32 → assignedId 2 = assignedId 1 + 1)
      ∧ (assignedId 1 = 2 ^ 32 → assignedId 2 = 1)
      ∧ assignedId 0 ≠ assignedId 1) :=
  ⟨by decide, by norm_num, findNode_lookup_id_sequence 0 1 (by decide) (by norm_num)⟩

/-- C8: confirmed.  For `FINDNODE(id, distance)` with `distance > 0` and
a non-empty shell at that distance, the handler sends exactly
`⌈n / 3⌉` NODES messages (where
`nodesPerPacket = ⌊(MAX_PACKET_SIZE − 92) / MAX_RECORD_SIZE⌋ = 3`), all
with the request's id and with `total = ⌈n / 3⌉`, and the concatenation
of their ENR lists is exactly the `n` records of the shell in table
order. -/
theorem onFindNode_splits_shell_into_packets
    (kb : Kbuckets) (localEnr : ENR) (m : IFindNodeMessage)
    (hd : m.distance ≠ 0) (hn : kb.valuesOfDistance m.distance ≠ []) :
    (MAX_PACKET_SIZE - 92) / MAX_RECORD_SIZE = 3
    ∧ (onFindNode kb localEnr m).length
        = ceilDiv (kb.valuesOfDistance m.distance).length 3
    ∧ (∀ p ∈ onFindNode kb localEnr m,
        p.id = m.id
        ∧ p.total = ceilDiv (kb.valuesOfDistance m.distance).length 3)
    ∧ ((onFindNode kb localEnr m).map (fun p => p.enrs)).flatten
        = kb.valuesOfDistance m.distance := by
  have hnpp : (MAX_PACKET_SIZE - 92) / MAX_RECORD_SIZE = 3 := by decide
  have hlen : (kb.valuesOfDistance m.distance).length ≠ 0 :=
    fun h => hn (List.eq_nil_of_length_eq_zero h)
  have ho : onFindNode kb localEnr m
      = (splitNodes 3 (kb.valuesOfDistance m.distance)).map
          (fun c => ⟨m.id, ceilDiv (kb.valuesOfDistance m.distance).length 3, c⟩) := by
    unfold onFindNode
    rw [if_neg hd, if_neg hlen, hnpp]
    simp
  refine ⟨hnpp, ?_, ?_, ?_⟩
  · rw [ho, List.length_map,
      splitNodes_length 3 (by decide) (kb.valuesOfDistance m.distance)]
  · intro p hp
    rw [ho] at hp
    obtain ⟨c, _, hc⟩ := List.mem_map.mp hp
    exact hc ▸ ⟨rfl, rfl⟩
  · rw [ho, List.map_map]
    have : ((fun p : INodesMessage => p.enrs) ∘
        (fun c => (⟨m.id, ceilDiv (kb.valuesOfDistance m.distance).length 3, c⟩
          : INodesMessage))) = id := rfl
    rw [this, List.map_id]
    exact splitNodes_join 3 (by decide) (kb.valuesOfDistance m.distance)

/-- C8 witness: a table with four records at distance 3 from the local
id (node ids 4, 5, 6, 7) answers `FINDNODE(id=9, distance=3)`. -/
theorem onFindNode_splits_shell_into_packets_witness :
    (3 : Nat) ≠ 0
    ∧ (Kbuckets.valuesOfDistance
        ⟨0, [⟨⟨4, 1⟩, .Connected⟩, ⟨⟨5, 1⟩, .Connected⟩,
             ⟨⟨6, 1⟩, .Connected⟩, ⟨⟨7, 1⟩, .Connected⟩], []⟩ 3 ≠ [])
    ∧ ((MAX_PACKET_SIZE - 92) / MAX_RECORD_SIZE = 3
      ∧ (onFindNode
          ⟨0, [⟨⟨4, 1⟩, .Connected⟩, ⟨⟨5, 1⟩, .Connected⟩,
               ⟨⟨6, 1⟩, .Connected⟩, ⟨⟨7, 1⟩, .Connected⟩], []⟩ ⟨0, 1⟩ ⟨9, 3⟩).length
          = ceilDiv (Kbuckets.valuesOfDistance
              ⟨0, [⟨⟨4, 1⟩, .Connected⟩, ⟨⟨5, 1⟩, .Connected⟩,
                   ⟨⟨6, 1⟩, .Connected⟩, ⟨⟨7, 1⟩, .Connected⟩], []⟩ 3).length 3
      ∧ (∀ p ∈ onFindNode
            ⟨0, [⟨⟨4, 1⟩, .Connected⟩, ⟨⟨5, 1⟩, .Connected⟩,
                 ⟨⟨6, 1⟩, .Connected⟩, ⟨⟨7, 1⟩, .Connected⟩], []⟩ ⟨0, 1⟩ ⟨9, 3⟩,
          p.id = (⟨9, 3⟩ : IFindNodeMessage).id
          ∧ p.total = ceilDiv (Kbuckets.valuesOfDistance
              ⟨0, [⟨⟨4, 1⟩, .Connected⟩, ⟨⟨5, 1⟩, .Connected⟩,
                   ⟨⟨6, 1⟩, .Connected⟩, ⟨⟨7, 1⟩, .Connected⟩], []⟩ 3).length 3)
      ∧ ((onFindNode
            ⟨0, [⟨⟨4, 1⟩, .Connected⟩, ⟨⟨5, 1⟩, .Connected⟩,
                 ⟨⟨6, 1⟩, .Connected⟩, ⟨⟨7, 1⟩, .Connected⟩], []⟩ ⟨0, 1⟩ ⟨9, 3⟩).map
              (fun p => p.enrs)).flatten
          = Kbuckets.valuesOfDistance
              ⟨0, [⟨⟨4, 1⟩, .Connected⟩, ⟨⟨5, 1⟩, .Connected⟩,
                   ⟨⟨6, 1⟩, .Connected⟩, ⟨⟨7, 1⟩, .Connected⟩], []⟩ 3) :=
  ⟨by decide, by decide,
    onFindNode_splits_shell_into_packets
      ⟨0, [⟨⟨4, 1⟩, .Connected⟩, ⟨⟨5, 1⟩, .Connected⟩,
           ⟨⟨6, 1⟩, .Connected⟩, ⟨⟨7, 1⟩, .Connected⟩], []⟩
      ⟨0, 1⟩ ⟨9, 3⟩ (by decide) (by decide)⟩

/-- C9: confirmed.  When the session service's `sendRequest` throws
synchronously (a destination ENR was found, so the send was attempted),
the failure is swallowed — the embedding is a total function, nothing
propagates — and the request registry is returned exactly as it was:
the `activeRequests.set` after the throwing call never runs. -/
theorem sendRequest_send_failure_swallowed
    (kb : Kbuckets) (ar : ReqMap) (nodeId : NodeId) (req : RequestMessage)
    (lid : Option Nat) (dstEnr : ENR)
    (h : kb.getValue nodeId = some dstEnr) :
    sendRequest kb ar false nodeId req lid = (ar, .failed) := by
  unfold sendRequest
  rw [h]
  simp

/-- C9 witness: a table holding node 5; sending to node 5 while the
session service throws leaves the registry empty. -/
theorem sendRequest_send_failure_swallowed_witness :
    Kbuckets.getValue ⟨0, [⟨⟨5, 1⟩, .Connected⟩], []⟩ 5 = some ⟨5, 1⟩
    ∧ sendRequest ⟨0, [⟨⟨5, 1⟩, .Connected⟩], []⟩ [] false 5 ⟨1, .ping 0⟩ none
      = ([], .failed) :=
  ⟨by decide,
    sendRequest_send_failure_swallowed ⟨0, [⟨⟨5, 1⟩, .Connected⟩], []⟩ [] 5
      ⟨1, .ping 0⟩ none ⟨5, 1⟩ (by decide)⟩

/-- C10: confirmed.  When the routing table has no ENR for the
destination — even though `findEnr` would resolve it through a live
lookup's untrusted buffer — `sendRequest` hands nothing to the session
service and leaves the registry untouched, and consequently a lookup
probe through `sendLookup` toward such a peer is silently dropped and
never registered. -/
theorem sendRequest_unknown_enr_is_noop
    (kb : Kbuckets) (ar : ReqMap) (sendOk : Bool) (lookups : List (List ENR))
    (reqId lookupId : Nat) (target : NodeId) (peer : ILookupPeer) (e : ENR)
    (req : RequestMessage) (lid : Option Nat)
    (hkb : kb.getValue peer.nodeId = none)
    (_huntrusted : findEnr kb lookups peer.nodeId = some e)
    (hdist : findNodeLog2Distance target peer ≠ 0) :
    sendRequest kb ar sendOk peer.nodeId req lid = (ar, .noEnr)
    ∧ sendLookup kb ar sendOk reqId lookupId target peer = .sent (ar, .noEnr) := by
  have hs : ∀ (r : RequestMessage) (l : Option Nat),
      sendRequest kb ar sendOk peer.nodeId r l = (ar, .noEnr) := by
    intro r l
    unfold sendRequest
    rw [hkb]
  refine ⟨hs req lid, ?_⟩
  unfold sendLookup
  rw [if_neg hdist, hs]

/-- C10 witness: peer 5 is present only in a lookup's untrusted ENR
buffer, not in the (empty) routing table; the probe toward it for
target 9 is dropped. -/
theorem sendRequest_unknown_enr_is_noop_witness :
    Kbuckets.getValue ⟨0, [], []⟩ 5 = none
    ∧ findEnr ⟨0, [], []⟩ [[⟨5, 1⟩]] 5 = some ⟨5, 1⟩
    ∧ findNodeLog2Distance 9 ⟨5, 1⟩ ≠ 0
    ∧ (sendRequest ⟨0, [], []⟩ [] true 5 ⟨3, .findnode 4⟩ (some 1) = ([], .noEnr)
      ∧ sendLookup ⟨0, [], []⟩ [] true 3 1 9 ⟨5, 1⟩ = .sent ([], .noEnr)) :=
  ⟨by decide, by decide, by decide,
    sendRequest_unknown_enr_is_noop ⟨0, [], []⟩ [] true [[⟨5, 1⟩]] 3 1 9 ⟨5, 1⟩
      ⟨5, 1⟩ ⟨3, .findnode 4⟩ (some 1) (by decide) (by decide) (by decide)⟩

end Discv5
